import Mathlib

/-!
Shallow embedding of `cat-zip` (`src/main.go`), a batch unzip/gunzip tool
that extracts matched archives under an output directory and appends every
extracted payload, newline-terminated, to one shared aggregate ("cat") file.

Paths are modelled as strings over a Unix separator, mirroring Go's
`path/filepath` lexical operations byte-for-byte on ASCII paths.
-/

namespace CatZip

/-- Byte-level `strings.HasPrefix` (structural recursion on the character
lists, so that concrete runs reduce inside the kernel). -/
def strStartsWith (s pre : String) : Bool :=
  pre.data.isPrefixOf s.data

/-- Byte-level `strings.HasSuffix`. -/
def strEndsWith (s suf : String) : Bool :=
  suf.data.reverse.isPrefixOf s.data.reverse

/-- Drop the last `n` characters. -/
def strDropRight (s : String) (n : Nat) : String :=
  String.mk (s.data.take (s.data.length - n))

/-- Split on a separator character; `splitOnSep sep cs acc` with `acc` the
current (reversed) field. Semantics of Go/Lean `splitOn` for a one-byte
separator: fields between separators, empty fields kept. -/
def splitOnSep (sep : Char) : List Char → List Char → List String
  | [], acc => [String.mk acc.reverse]
  | c :: rest, acc =>
    if c = sep then String.mk acc.reverse :: splitOnSep sep rest []
    else splitOnSep sep rest (c :: acc)

/-- Join a list of strings with a separator (`strings.Join`). -/
def strIntercalate (sep : String) : List String → String
  | [] => ""
  | [s] => s
  | s :: rest => s ++ sep ++ strIntercalate sep rest

/-- One step of Go `path.Clean`'s element processing: `acc` is the list of
already-emitted elements in reverse; `c` is the next non-empty, non-`"."`
element. -/
def cleanFold (rooted : Bool) (acc : List String) (c : String) : List String :=
  if c = ".." then
    match acc with
    | [] => if rooted then [] else [".."]
    | a :: rest => if a = ".." then c :: a :: rest else rest
  else c :: acc

/-- Go `filepath.Clean` for Unix separators. -/
def goClean (path : String) : String :=
  if path = "" then "."
  else
    let rooted := strStartsWith path "/"
    let comps := (splitOnSep '/' path.data []).filter (fun c => c ≠ "" ∧ c ≠ ".")
    let out := (comps.foldl (cleanFold rooted) []).reverse
    let body := strIntercalate "/" out
    if rooted then
      (if body = "" then "/" else "/" ++ body)
    else
      (if body = "" then "." else body)

/-- Go `filepath.Join` on two elements: non-empty elements joined by the
separator, then cleaned; all-empty yields `""`. -/
def goJoin (a b : String) : String :=
  if a = "" ∧ b = "" then ""
  else if a = "" then goClean b
  else if b = "" then goClean a
  else goClean (a ++ "/" ++ b)

/-- Helper for `goExt`: scans the reversed characters of the path,
accumulating until the final `.` of the last element (or stopping at a
separator). -/
def goExtAux : List Char → List Char → String
  | [], _ => ""
  | c :: rest, acc =>
    if c = '/' then ""
    else if c = '.' then String.mk ('.' :: acc)
    else goExtAux rest (c :: acc)

/-- Go `filepath.Ext`: the suffix beginning at the final dot in the final
slash-separated element, or `""`. -/
def goExt (path : String) : String := goExtAux path.data.reverse []

/-- Go `filepath.Base`. -/
def goBase (path : String) : String :=
  if path = "" then "."
  else
    let stripped := (path.data.reverse.dropWhile (· = '/')).reverse
    if stripped = [] then "/"
    else String.mk (stripped.reverse.takeWhile (· ≠ '/')).reverse

/-- Go `filepath.Dir`: everything up to and including the final separator,
cleaned. -/
def goDir (path : String) : String :=
  goClean (String.mk (path.data.reverse.dropWhile (· ≠ '/')).reverse)

/-- Go `strings.TrimSuffix`. -/
def trimSuffix (s suf : String) : String :=
  if strEndsWith s suf then strDropRight s suf.data.length else s

/-- Go `filepath.Abs` relative to a working directory `cwd`. -/
def goAbs (cwd path : String) : String :=
  if strStartsWith path "/" then goClean path else goJoin cwd path

/-! ## Finite maps as association lists

`unzipedFiles map[string]uint` and the on-disk set of written output files
are both modelled as association lists preserving first-insertion order. -/

/-- Lookup in an association list (Go map read: `v, ok := m[k]`). -/
def lookupTab (t : List (String × Nat)) (k : String) : Option Nat :=
  match t with
  | [] => none
  | (k', v) :: rest => if k' = k then some v else lookupTab rest k

/-- Store into an association list, replacing in place or appending. -/
def setTab (t : List (String × Nat)) (k : String) (v : Nat) : List (String × Nat) :=
  match t with
  | [] => [(k, v)]
  | (k', v') :: rest => if k' = k then (k, v) :: rest else (k', v') :: setTab rest k v

/-- Go `m[k] += 1`: absent keys read as zero. -/
def incrTab (t : List (String × Nat)) (k : String) : List (String × Nat) :=
  setTab t k ((lookupTab t k).getD 0 + 1)

/-- Contents of the output file at path `k`, if one has been created. -/
def lookupFs (t : List (String × String)) (k : String) : Option String :=
  match t with
  | [] => none
  | (k', v) :: rest => if k' = k then some v else lookupFs rest k

/-- Create/truncate-and-write the file at path `k` (`O_CREATE|O_TRUNC`
semantics: an existing file at the same path is replaced). -/
def setFs (t : List (String × String)) (k : String) (v : String) : List (String × String) :=
  match t with
  | [] => [(k, v)]
  | (k', v') :: rest => if k' = k then (k, v) :: rest else (k', v') :: setFs rest k v

/-- `os.MkdirAll`: records the directory path (idempotent). -/
def mkdirAll (dirs : List String) (p : String) : List String :=
  if p ∈ dirs then dirs else dirs ++ [p]

/-! ## Data model -/

/-- One zip archive entry: its declared name (relative path inside the
archive), whether it is a directory, and its decompressed payload. -/
structure Entry where
  name : String
  isDir : Bool
  content : String
  deriving Repr, DecidableEq

/-- One node visited by `filepath.WalkDir` in discovery order: the full
path handed to the callback, the entry's base name (`d.Name()`), whether it
is a directory, and whether the walk reports a traversal error at this
node. -/
structure DirEnt where
  path : String
  name : String
  isDir : Bool
  err : Bool
  deriving Repr, DecidableEq

/-- Observable filesystem write events, in program order. -/
inductive Ev where
  /-- `os.Create` / `os.OpenFile` of an output file (truncating). -/
  | create (p : String)
  /-- `io.Copy` of a payload into the output file at `p`. -/
  | writeFile (p : String) (c : String)
  /-- `io.Copy` of a payload into the aggregate (cat) file. -/
  | writeCat (c : String)
  /-- the `catFile.WriteString("\n")` separator actually reaching the
  aggregate file. -/
  | catNl
  deriving Repr, DecidableEq

/-- Injected filesystem faults, all `false`/constantly-`false` in a healthy
run. -/
structure Faults where
  /-- `os.OpenFile` of the aggregate file fails (its error is discarded by
  `main`, leaving a nil `catFile`). -/
  catOpen : Bool
  /-- creating the output file at this path fails. -/
  create : String → Bool
  /-- copying payload bytes into the output file at this path fails. -/
  write : String → Bool
  /-- copying payload bytes into the aggregate file fails. -/
  catWrite : Bool
  /-- writing the `"\n"` separator to the aggregate file fails (return
  value ignored by the code). -/
  catNewline : Bool

/-- The fault-free world. -/
def noFaults : Faults :=
  { catOpen := false, create := fun _ => false, write := fun _ => false,
    catWrite := false, catNewline := false }

/-- Program configuration: the CLI flags plus the working directory that
`filepath.Abs` resolves against. -/
structure Config where
  dirFlag : String
  outdir : String
  ext : String
  outfile : String
  cwd : String

/-- A complete run environment: flags, the walk of the input directory in
discovery order, the contents behind each archive path, and injected
faults. `zipEntries f = none` models a `zip.OpenReader` failure;
`gzData g = none` models an `os.Open`/`gzip.NewReader` failure; `some s`
is the decompressed stream. -/
structure World where
  cfg : Config
  events : List DirEnt
  zipEntries : String → Option (List Entry)
  gzData : String → Option String
  faults : Faults

/-- Mutable program state: output files written so far (path ↦ final
bytes), directories created, aggregate-file bytes, whether the aggregate
file was successfully opened, the `unzipedFiles` collision table, and the
write-event trace. -/
structure St where
  files : List (String × String)
  dirs : List String
  cat : String
  catOpened : Bool
  table : List (String × Nat)
  trace : List Ev
  deriving Repr, DecidableEq

/-- A finished run: normal completion, or `log.Fatal`/`os.Exit(1)` abort
(non-zero exit) with the state at the moment of abort. -/
inductive Outcome where
  | ok (s : St)
  | fatal (s : St) (msg : String)
  deriving Repr, DecidableEq

/-- The state carried by an outcome (what is on disk when the process
ends). -/
def outSt : Outcome → St
  | .ok s => s
  | .fatal s _ => s

/-! ## The program -/

/-- The `filepath.WalkDir` loop in `main`: directories are skipped, a
regular file whose `filepath.Ext` equals the `-ext` flag is collected, and
a traversal error stops the walk. Returns the collected paths in
discovery order together with whether a traversal error occurred (the
error that `WalkDir` returns to `main`, which `main` discards). -/
def scanGo (events : List DirEnt) (ext : String) : List String × Bool :=
  match events with
  | [] => ([], false)
  | e :: rest =>
    if e.err then ([], true)
    else if e.isDir then scanGo rest ext
    else if goExt e.name = ext then
      let (l, b) := scanGo rest ext
      (e.path :: l, b)
    else scanGo rest ext

/-- `autoRenameRepeatedFiles` from `src/main.go`: consults the collision
table for `filePath`; if present with counter `n`, rebuilds the name as
`stem(n)ext` in the same directory. Reads the table only — it never
updates it. -/
def autoRenameRepeatedFiles (table : List (String × Nat)) (filePath : String) : String :=
  match lookupTab table filePath with
  | none => filePath
  | some counter =>
    let ext := goExt filePath
    let fileName := goBase filePath
    let stem := strDropRight fileName ext.data.length
    goJoin (goDir filePath) (stem ++ "(" ++ Nat.repr counter ++ ")" ++ ext)

/-- The candidate output path for a zip entry: output root joined with the
entry's declared name (`filepath.Join(destination, f.Name)`). -/
def entryPath (destination : String) (e : Entry) : String :=
  goJoin destination e.name

/-- The zip-slip guard from `unzipFile`: the joined path must have the
cleaned output root plus a trailing separator as a prefix. -/
def slipOk (destination : String) (e : Entry) : Bool :=
  strStartsWith (entryPath destination e) (goClean destination ++ "/")

/-- `unzipFile` from `src/main.go`, one zip entry against the current
state. Returns the updated state plus `some errMsg` when the Go function
returns a non-nil error (the state keeps any effects performed before the
failing step). Mirrors, in order: the zip-slip check; the directory
branch; `MkdirAll` of the parent; the inline collision rename (lookup on
the original path); `OpenFile` (create/truncate); copy to the output
file; copy to the aggregate file; the ignored `WriteString("\n")`; and
the final `unzipedFiles[filePath] += 1` — keyed by the possibly renamed
path. -/
def unzipFile (w : World) (f : Entry) (destination : String) (st : St) : St × Option String :=
  let filePath := goJoin destination f.name
  if ¬ (strStartsWith filePath (goClean destination ++ "/")) then
    (st, some ("invalid file path: " ++ filePath))
  else if f.isDir then
    ({ st with dirs := mkdirAll st.dirs filePath }, none)
  else
    let st := { st with dirs := mkdirAll st.dirs (goDir filePath) }
    let filePath := autoRenameRepeatedFiles st.table filePath
    if w.faults.create filePath then
      (st, some ("open " ++ filePath ++ ": create failed"))
    else
      let st := { st with files := setFs st.files filePath "",
                          trace := st.trace ++ [Ev.create filePath] }
      if w.faults.write filePath then
        (st, some ("write " ++ filePath ++ ": write failed"))
      else
        let st := { st with files := setFs st.files filePath f.content,
                            trace := st.trace ++ [Ev.writeFile filePath f.content] }
        if (¬ st.catOpened ∧ f.content ≠ "") ∨ w.faults.catWrite then
          (st, some "write cat: write failed")
        else
          let st := { st with cat := st.cat ++ f.content,
                              trace := st.trace ++ [Ev.writeCat f.content] }
          let st := if st.catOpened ∧ ¬ w.faults.catNewline then
                      { st with cat := st.cat ++ "\n", trace := st.trace ++ [Ev.catNl] }
                    else st
          ({ st with table := incrTab st.table filePath }, none)

/-- The absolute output root `handleZip` computes once per archive:
`filepath.Abs(*outdir)`. -/
def zipDest (w : World) : String := goAbs w.cfg.cwd w.cfg.outdir

/-- The inner entry loop of `handleZip`: the first entry error is fatal
(`log.Fatal`), otherwise entries are processed in archive order. -/
def runEntries (w : World) (destination : String) : List Entry → St → Outcome
  | [], st => .ok st
  | e :: rest, st =>
    match unzipFile w e destination st with
    | (st', some m) => .fatal st' ("Unable to to unzip file inside archive: " ++ m)
    | (st', none) => runEntries w destination rest st'

/-- `handleZip`: per matched archive, open it (`zip.OpenReader`; failure
is fatal), resolve the output root, and run the entry loop. -/
def runArchives (w : World) : List String → St → Outcome
  | [], st => .ok st
  | f :: rest, st =>
    match w.zipEntries f with
    | none => .fatal st ("Unable to read " ++ w.cfg.ext ++ " file ")
    | some es =>
      match runEntries w (zipDest w) es st with
      | .fatal st' m => .fatal st' m
      | .ok st' => runArchives w rest st'

/-- One iteration of the `handleGz` loop for the matched input `g`:
derive the output name by trimming the literal `".gz"` suffix from the
input path, consult (but never update) the collision table, create the
output file, decompress the input once into it, decompress the input a
second time into the aggregate file, then the ignored
`WriteString("\n")`. Any error is reported for the caller's `log.Fatal`
(or `os.Exit(1)` for an unreadable input). -/
def gzStep (w : World) (g : String) (st : St) : St × Option String :=
  let newFilename := trimSuffix g ".gz"
  let newFilename := autoRenameRepeatedFiles st.table newFilename
  if w.faults.create newFilename then
    (st, some ("open " ++ newFilename ++ ": create failed"))
  else
    let st := { st with files := setFs st.files newFilename "",
                        trace := st.trace ++ [Ev.create newFilename] }
    match w.gzData g with
    | none => (st, some ("open " ++ g ++ ": read failed"))
    | some data =>
      if w.faults.write newFilename then
        (st, some ("write " ++ newFilename ++ ": write failed"))
      else
        let st := { st with files := setFs st.files newFilename data,
                            trace := st.trace ++ [Ev.writeFile newFilename data] }
        if (¬ st.catOpened ∧ data ≠ "") ∨ w.faults.catWrite then
          (st, some "write cat: write failed")
        else
          let st := { st with cat := st.cat ++ data,
                              trace := st.trace ++ [Ev.writeCat data] }
          let st := if st.catOpened ∧ ¬ w.faults.catNewline then
                      { st with cat := st.cat ++ "\n", trace := st.trace ++ [Ev.catNl] }
                    else st
          (st, none)

/-- `handleGz`: the matched files in order; the first error is fatal. -/
def runGzFiles (w : World) : List String → St → Outcome
  | [], st => .ok st
  | g :: rest, st =>
    match gzStep w g st with
    | (st', some m) => .fatal st' m
    | (st', none) => runGzFiles w rest st'

/-- The state just after `main` opens (or fails to open, discarding the
error) the aggregate file. -/
def initSt (w : World) : St :=
  { files := [], dirs := [], cat := "", catOpened := !w.faults.catOpen,
    table := [], trace := [] }

/-- The dispatch at the end of `main`, on the already-collected matched
paths: `filepath.Ext(*ext)` equal to `".gz"` selects `handleGz`, anything
else `handleZip`. -/
def dispatchFiles (w : World) (filesInDir : List String) : Outcome :=
  if goExt w.cfg.ext = ".gz" then
    runGzFiles w filesInDir (initSt w)
  else
    runArchives w filesInDir (initSt w)

/-- `main`: walk the input directory (the walk's returned error is
discarded), open/truncate the aggregate file (error discarded), then
dispatch on `filepath.Ext(*ext)`: `".gz"` → `handleGz`, anything else →
`handleZip`. -/
def runMain (w : World) : Outcome :=
  dispatchFiles w (scanGo w.events w.cfg.ext).1

/-! ## Specification-side shapes -/

/-- Concatenation of a list of byte strings. -/
def strJoin : List String → String
  | [] => ""
  | s :: rest => s ++ strJoin rest

/-- The four write events one extracted payload is supposed to produce:
create the output file at `p`, copy the payload into it, copy the payload
into the aggregate file, then one newline separator. -/
def entryWrites (p c : String) : List Ev :=
  [Ev.create p, Ev.writeFile p c, Ev.writeCat c, Ev.catNl]

/-- The non-directory entries of a list. -/
def regEntries (es : List Entry) : List Entry :=
  es.filter (fun e => !e.isDir)

/-- All entries of the archives behind the given paths, in discovery
order. -/
def archiveEntries (w : World) (fs : List String) : List Entry :=
  fs.flatMap (fun f => (w.zipEntries f).getD [])

/-! ## Big-step run relations

Inductive presentations of the two extraction loops, mirroring their
control flow step by step; used to state determinism of the program as
functionality of its run relation. -/

/-- Big-step relation for the zip entry loop of `handleZip`. -/
inductive EntriesRel (w : World) (d : String) : List Entry → St → Outcome → Prop where
  /-- no entries left: normal completion. -/
  | nil (st : St) : EntriesRel w d [] st (.ok st)
  /-- the head entry fails: `log.Fatal` with the partial state. -/
  | consFatal (e : Entry) (es : List Entry) (st st' : St) (m : String) :
      unzipFile w e d st = (st', some m) →
      EntriesRel w d (e :: es) st
        (.fatal st' ("Unable to to unzip file inside archive: " ++ m))
  /-- the head entry succeeds: continue with the rest. -/
  | consOk (e : Entry) (es : List Entry) (st st' : St) (o : Outcome) :
      unzipFile w e d st = (st', none) → EntriesRel w d es st' o →
      EntriesRel w d (e :: es) st o

/-- Big-step relation for the archive loop of `handleZip`. -/
inductive ArchivesRel (w : World) : List String → St → Outcome → Prop where
  /-- no archives left: normal completion. -/
  | nil (st : St) : ArchivesRel w [] st (.ok st)
  /-- `zip.OpenReader` fails: `log.Fatalf`. -/
  | openFatal (f : String) (fs : List String) (st : St) :
      w.zipEntries f = none →
      ArchivesRel w (f :: fs) st (.fatal st ("Unable to read " ++ w.cfg.ext ++ " file "))
  /-- an entry of the head archive aborts the run. -/
  | entFatal (f : String) (fs : List String) (st st' : St) (es : List Entry) (m : String) :
      w.zipEntries f = some es →
      EntriesRel w (zipDest w) es st (.fatal st' m) →
      ArchivesRel w (f :: fs) st (.fatal st' m)
  /-- the head archive extracts fully: continue with the rest. -/
  | entOk (f : String) (fs : List String) (st st' : St) (es : List Entry) (o : Outcome) :
      w.zipEntries f = some es →
      EntriesRel w (zipDest w) es st (.ok st') → ArchivesRel w fs st' o →
      ArchivesRel w (f :: fs) st o

/-- Big-step relation for the `handleGz` loop. -/
inductive GzRel (w : World) : List String → St → Outcome → Prop where
  /-- no inputs left: normal completion. -/
  | nil (st : St) : GzRel w [] st (.ok st)
  /-- the head input fails: abort. -/
  | stepFatal (g : String) (gs : List String) (st st' : St) (m : String) :
      gzStep w g st = (st', some m) → GzRel w (g :: gs) st (.fatal st' m)
  /-- the head input succeeds: continue. -/
  | stepOk (g : String) (gs : List String) (st st' : St) (o : Outcome) :
      gzStep w g st = (st', none) → GzRel w gs st' o → GzRel w (g :: gs) st o

/-! ## Concrete scenarios -/

/-- A zip-mode run over one archive `in/t.zip` holding three regular
entries all named `a.txt` (payloads `"1"`, `"2"`, `"3"`), extracting to
the absolute output root `/out`, fault-free. -/
def zipWorld3 : World :=
  { cfg := { dirFlag := "in", outdir := "/out", ext := ".zip", outfile := "blob", cwd := "/" },
    events := [{ path := "in/t.zip", name := "t.zip", isDir := false, err := false }],
    zipEntries := fun f =>
      if f = "in/t.zip" then
        some [{ name := "a.txt", isDir := false, content := "1" },
              { name := "a.txt", isDir := false, content := "2" },
              { name := "a.txt", isDir := false, content := "3" }]
      else none,
    gzData := fun _ => none,
    faults := noFaults }

/-- A gz-mode run over one input `a.gz` whose decompressed stream is
`"X"`, fault-free. -/
def gzWorld4 : World :=
  { cfg := { dirFlag := ".", outdir := ".", ext := ".gz", outfile := "blob", cwd := "/" },
    events := [{ path := "a.gz", name := "a.gz", isDir := false, err := false }],
    zipEntries := fun _ => none,
    gzData := fun g => if g = "a.gz" then some "X" else none,
    faults := noFaults }

/-- A gz-mode run with distinct input and output directories: `-dir in`,
`-outdir out`, one input `in/a.gz` decompressing to `"X"`, fault-free. -/
def gzWorld5 : World :=
  { cfg := { dirFlag := "in", outdir := "out", ext := ".gz", outfile := "blob", cwd := "/" },
    events := [{ path := "in/a.gz", name := "a.gz", isDir := false, err := false }],
    zipEntries := fun _ => none,
    gzData := fun g => if g = "in/a.gz" then some "X" else none,
    faults := noFaults }

/-- A zip-mode run where opening the aggregate file fails (the only
fault), over one archive holding a single directory entry. -/
def zipWorld6 : World :=
  { cfg := { dirFlag := "in", outdir := "/out", ext := ".zip", outfile := "blob", cwd := "/" },
    events := [{ path := "in/t.zip", name := "t.zip", isDir := false, err := false }],
    zipEntries := fun f =>
      if f = "in/t.zip" then some [{ name := "sub", isDir := true, content := "" }] else none,
    gzData := fun _ => none,
    faults := { noFaults with catOpen := true } }

/-- A zip-mode run whose directory walk hits a traversal error after
having discovered `in/t.zip` (one regular entry `a.txt` ↦ `"A"`) and
before `in/u.zip`. -/
def zipWorld7 : World :=
  { cfg := { dirFlag := "in", outdir := "/out", ext := ".zip", outfile := "blob", cwd := "/" },
    events := [{ path := "in/t.zip", name := "t.zip", isDir := false, err := false },
               { path := "in/bad", name := "bad", isDir := false, err := true },
               { path := "in/u.zip", name := "u.zip", isDir := false, err := false }],
    zipEntries := fun f =>
      if f = "in/t.zip" then some [{ name := "a.txt", isDir := false, content := "A" }]
      else none,
    gzData := fun _ => none,
    faults := noFaults }

/-- A regular test entry named `a.txt` with payload `"1"`. -/
def entA : Entry := { name := "a.txt", isDir := false, content := "1" }

/-- A directory test entry named `sub`. -/
def entSub : Entry := { name := "sub", isDir := true, content := "" }

/-- A zip-slip test entry whose name climbs out of the output root. -/
def entEvil : Entry := { name := "../evil.txt", isDir := false, content := "x" }

/-- `zipWorld3` with a fault creating `/out/a.txt`. -/
def zipWorld6a : World :=
  { zipWorld3 with faults := { noFaults with create := fun p => decide (p = "/out/a.txt") } }

/-- `zipWorld3` with a fault writing to `/out/a.txt`. -/
def zipWorld6b : World :=
  { zipWorld3 with faults := { noFaults with write := fun p => decide (p = "/out/a.txt") } }

/-- `zipWorld3` with a fault copying payloads into the aggregate file. -/
def zipWorld6c : World :=
  { zipWorld3 with faults := { noFaults with catWrite := true } }

/-- `zipWorld3` with a fault writing the newline separator. -/
def zipWorld6d : World :=
  { zipWorld3 with faults := { noFaults with catNewline := true } }

/-- `zipWorld6` with an empty input directory. -/
def zipWorld6e : World := { zipWorld6 with events := [] }

/-- Walk events exercising the scanner filter: a directory whose name ends
in the extension, an exact match, a case variant, a sub-extension, and a
double extension. -/
def scanEvents8 : List DirEnt :=
  [{ path := "in/d.zip", name := "d.zip", isDir := true, err := false },
   { path := "in/a.zip", name := "a.zip", isDir := false, err := false },
   { path := "in/b.ZIP", name := "b.ZIP", isDir := false, err := false },
   { path := "in/c.zip.bak", name := "c.zip.bak", isDir := false, err := false },
   { path := "in/e.tar.zip", name := "e.tar.zip", isDir := false, err := false }]

/-! ## Basic lemmas about the association-list maps -/

theorem lookupTab_append_single (t : List (String × Nat)) (k k' : String) (v : Nat)
    (h : lookupTab t k' = none) :
    lookupTab (t ++ [(k, v)]) k' = if k = k' then some v else none := by
  induction t with
  | nil => simp [lookupTab]
  | cons hd tl ih =>
    rw [lookupTab] at h
    by_cases hk : hd.1 = k'
    · simp [hk] at h
    · simp only [List.cons_append, lookupTab, hk, if_neg hk] at h ⊢
      exact ih h

theorem lookupFs_append_single (t : List (String × String)) (k k' : String) (v : String)
    (h : lookupFs t k' = none) :
    lookupFs (t ++ [(k, v)]) k' = if k = k' then some v else none := by
  induction t with
  | nil => simp [lookupFs]
  | cons hd tl ih =>
    rw [lookupFs] at h
    by_cases hk : hd.1 = k'
    · simp [hk] at h
    · simp only [List.cons_append, lookupFs, hk, if_neg hk] at h ⊢
      exact ih h

theorem setTab_absent (t : List (String × Nat)) (k : String) (v : Nat)
    (h : lookupTab t k = none) : setTab t k v = t ++ [(k, v)] := by
  induction t with
  | nil => simp [setTab]
  | cons hd tl ih =>
    rw [lookupTab] at h
    by_cases hk : hd.1 = k
    · simp [hk] at h
    · simp only [setTab, hk, if_neg hk, List.cons_append]
      simp [ih (by simpa [hk] using h)]

theorem incrTab_absent (t : List (String × Nat)) (k : String)
    (h : lookupTab t k = none) : incrTab t k = t ++ [(k, 1)] := by
  rw [incrTab, h]
  exact setTab_absent t k _ h

theorem setFs_absent (t : List (String × String)) (k v : String)
    (h : lookupFs t k = none) : setFs t k v = t ++ [(k, v)] := by
  induction t with
  | nil => simp [setFs]
  | cons hd tl ih =>
    rw [lookupFs] at h
    by_cases hk : hd.1 = k
    · simp [hk] at h
    · simp only [setFs, hk, if_neg hk, List.cons_append]
      simp [ih (by simpa [hk] using h)]

theorem setFs_append_self (t : List (String × String)) (k v v' : String)
    (h : lookupFs t k = none) : setFs (t ++ [(k, v)]) k v' = t ++ [(k, v')] := by
  induction t with
  | nil => simp [setFs]
  | cons hd tl ih =>
    rw [lookupFs] at h
    by_cases hk : hd.1 = k
    · simp [hk] at h
    · simp only [List.cons_append, setFs, hk, if_neg hk]
      simp [ih (by simpa [hk] using h)]

theorem autoRename_absent (t : List (String × Nat)) (p : String)
    (h : lookupTab t p = none) : autoRenameRepeatedFiles t p = p := by
  simp [autoRenameRepeatedFiles, h]

theorem regEntries_nil : regEntries [] = [] := rfl

theorem regEntries_cons_dir (e : Entry) (es : List Entry) (h : e.isDir = true) :
    regEntries (e :: es) = regEntries es := by
  simp [regEntries, h]

theorem regEntries_cons_reg (e : Entry) (es : List Entry) (h : e.isDir = false) :
    regEntries (e :: es) = e :: regEntries es := by
  simp [regEntries, h]

/-! ## Step lemmas describing `unzipFile` and `gzStep` -/

/-- A directory entry that passes the zip-slip guard: only the directory
tree is created. -/
theorem unzipFile_dir (w : World) (e : Entry) (d : String) (st : St)
    (hSafe : slipOk d e = true) (hDir : e.isDir = true) :
    unzipFile w e d st = ({ st with dirs := mkdirAll st.dirs (entryPath d e) }, none) := by
  have hs : strStartsWith (goJoin d e.name) (goClean d ++ "/") = true := by
    simpa [slipOk, entryPath] using hSafe
  simp [unzipFile, entryPath, hs, hDir]

/-- An entry failing the zip-slip guard: rejected with no state change. -/
theorem unzipFile_slip (w : World) (e : Entry) (d : String) (st : St)
    (hSafe : slipOk d e = false) :
    unzipFile w e d st = (st, some ("invalid file path: " ++ entryPath d e)) := by
  have hs : strStartsWith (goJoin d e.name) (goClean d ++ "/") = false := by
    simpa [slipOk, entryPath] using hSafe
  simp [unzipFile, entryPath, hs]

/-- A fresh (uncollided) regular entry in a fault-free world: the file is
created with the entry's payload, the payload plus a newline reaches the
aggregate file, and the collision table records the path once. -/
theorem unzipFile_fresh (w : World) (e : Entry) (d : String) (st : St)
    (hW : w.faults = noFaults) (hCat : st.catOpened = true)
    (hSafe : slipOk d e = true) (hDir : e.isDir = false)
    (hT : lookupTab st.table (entryPath d e) = none)
    (hF : lookupFs st.files (entryPath d e) = none) :
    unzipFile w e d st =
      ({ st with
          dirs := mkdirAll st.dirs (goDir (entryPath d e)),
          files := st.files ++ [(entryPath d e, e.content)],
          cat := st.cat ++ e.content ++ "\n",
          trace := st.trace ++ entryWrites (entryPath d e) e.content,
          table := st.table ++ [(entryPath d e, 1)] }, none) := by
  have hs : strStartsWith (goJoin d e.name) (goClean d ++ "/") = true := by
    simpa [slipOk, entryPath] using hSafe
  have hT' : lookupTab st.table (goJoin d e.name) = none := by
    simpa [entryPath] using hT
  have hF' : lookupFs st.files (goJoin d e.name) = none := by
    simpa [entryPath] using hF
  simp only [unzipFile, hs, hDir, hW, noFaults, Bool.not_eq_true, Bool.false_eq_true,
    if_false, not_true_eq_false, ite_false, ite_true, entryPath]
  rw [autoRename_absent _ _ hT']
  simp only [hCat, setFs_absent st.files _ _ hF',
    setFs_append_self st.files _ _ _ hF', incrTab_absent _ _ hT']
  simp [entryPath, entryWrites, hCat, String.append_assoc, incrTab_absent _ _ hT']

/-- One gzip input in a fault-free world with an empty collision table:
the derived name is used unrenamed, the payload reaches the output file
and the aggregate file plus newline, and the collision table stays as it
was. -/
theorem gzStep_ok (w : World) (g : String) (st : St) (data : String)
    (hW : w.faults = noFaults) (hCat : st.catOpened = true)
    (hTab : st.table = []) (hData : w.gzData g = some data) :
    gzStep w g st =
      ({ st with
          files := setFs (setFs st.files (trimSuffix g ".gz") "") (trimSuffix g ".gz") data,
          cat := st.cat ++ data ++ "\n",
          trace := st.trace ++ entryWrites (trimSuffix g ".gz") data }, none) := by
  have hR : autoRenameRepeatedFiles st.table (trimSuffix g ".gz") = trimSuffix g ".gz" := by
    rw [hTab]; exact autoRename_absent [] _ rfl
  simp [gzStep, hW, noFaults, hR, hData, hCat, entryWrites, String.append_assoc]

/-- `gzStep` never touches the collision table, whatever happens. -/
theorem gzStep_table (w : World) (g : String) (st : St) :
    (gzStep w g st).1.table = st.table := by
  simp only [gzStep]
  repeat' split
  all_goals rfl

/-! ## Run-level characterizations -/

/-- Fault-free zip-entry loop over entries whose resolved paths are fresh
(absent from state and table) and pairwise distinct: every regular entry
yields exactly its four writes in order, the aggregate collects each
payload plus one newline in discovery order, and each output file holds
its entry's payload. -/
theorem runEntries_fresh (w : World) (d : String) :
    ∀ (es : List Entry) (st : St),
    w.faults = noFaults →
    st.catOpened = true →
    (∀ e ∈ es, slipOk d e = true) →
    (∀ e ∈ regEntries es, lookupTab st.table (entryPath d e) = none) →
    (∀ e ∈ regEntries es, lookupFs st.files (entryPath d e) = none) →
    ((regEntries es).map (entryPath d)).Nodup →
    ∃ st', runEntries w d es st = Outcome.ok st' ∧
      st'.files = st.files ++ (regEntries es).map (fun e => (entryPath d e, e.content)) ∧
      st'.cat = st.cat ++ strJoin ((regEntries es).map (fun e => e.content ++ "\n")) ∧
      st'.trace = st.trace ++
        (regEntries es).flatMap (fun e => entryWrites (entryPath d e) e.content) ∧
      st'.table = st.table ++ (regEntries es).map (fun e => (entryPath d e, 1)) ∧
      st'.catOpened = true := by
  intro es
  induction es with
  | nil =>
    intro st hW hCat _ _ _ _
    exact ⟨st, by simp [runEntries, regEntries, strJoin, hCat]⟩
  | cons e rest ih =>
    intro st hW hCat hSafe hT hF hN
    by_cases hDir : e.isDir = true
    · -- directory entry: only dirs change; everything else threads through
      rw [runEntries, unzipFile_dir w e d st (hSafe e (by simp)) hDir]
      have hre : regEntries (e :: rest) = regEntries rest := regEntries_cons_dir e rest hDir
      rw [hre] at hT hF hN
      obtain ⟨st', h1, h2, h3, h4, h5, h6⟩ :=
        ih { st with dirs := mkdirAll st.dirs (entryPath d e) } hW hCat
          (fun x hx => hSafe x (List.mem_cons_of_mem e hx)) hT hF hN
      exact ⟨st', h1, by simpa [hre] using ⟨h2, h3, h4, h5, h6⟩⟩
    · -- regular entry
      have hDir' : e.isDir = false := by simpa using hDir
      have hre : regEntries (e :: rest) = e :: regEntries rest :=
        regEntries_cons_reg e rest hDir'
      rw [hre] at hT hF hN
      have hTe : lookupTab st.table (entryPath d e) = none := hT e (by simp)
      have hFe : lookupFs st.files (entryPath d e) = none := hF e (by simp)
      rw [runEntries,
        unzipFile_fresh w e d st hW hCat (hSafe e (by simp)) hDir' hTe hFe]
      simp only [List.map_cons] at hN
      have hNC := List.nodup_cons.mp hN
      have hNotMem : entryPath d e ∉ (regEntries rest).map (entryPath d) := hNC.1
      have hT' : ∀ x ∈ regEntries rest,
          lookupTab (st.table ++ [(entryPath d e, 1)]) (entryPath d x) = none := by
        intro x hx
        have hne : entryPath d e ≠ entryPath d x := by
          intro hEq
          exact hNotMem (hEq ▸ List.mem_map_of_mem (entryPath d) hx)
        rw [lookupTab_append_single _ _ _ _ (hT x (List.mem_cons_of_mem e hx))]
        simp [hne]
      have hF' : ∀ x ∈ regEntries rest,
          lookupFs (st.files ++ [(entryPath d e, e.content)]) (entryPath d x) = none := by
        intro x hx
        have hne : entryPath d e ≠ entryPath d x := by
          intro hEq
          exact hNotMem (hEq ▸ List.mem_map_of_mem (entryPath d) hx)
        rw [lookupFs_append_single _ _ _ _ (hF x (List.mem_cons_of_mem e hx))]
        simp [hne]
      obtain ⟨st', h1, h2, h3, h4, h5, h6⟩ :=
        ih { st with
              dirs := mkdirAll st.dirs (goDir (entryPath d e)),
              files := st.files ++ [(entryPath d e, e.content)],
              cat := st.cat ++ e.content ++ "\n",
              trace := st.trace ++ entryWrites (entryPath d e) e.content,
              table := st.table ++ [(entryPath d e, 1)] }
          hW hCat (fun x hx => hSafe x (List.mem_cons_of_mem e hx)) hT' hF' hNC.2
      refine ⟨st', h1, ?_, ?_, ?_, ?_, h6⟩
      · rw [h2]; simp [hre]
      · rw [h3]; simp [hre, strJoin, String.append_assoc]
      · rw [h4]; simp [hre]
      · rw [h5]; simp [hre]

/-- Fault-free gzip loop with an empty collision table: each input's
decompressed bytes land in the trimmed-name output file and, newline
terminated, in the aggregate, in discovery order; the table never
changes. -/
theorem runGzFiles_ok (w : World) :
    ∀ (gs : List String) (st : St),
    w.faults = noFaults →
    st.catOpened = true →
    st.table = [] →
    (∀ g ∈ gs, (w.gzData g).isSome) →
    ∃ st', runGzFiles w gs st = Outcome.ok st' ∧
      st'.cat = st.cat ++ strJoin (gs.map (fun g => (w.gzData g).getD "" ++ "\n")) ∧
      st'.trace = st.trace ++
        gs.flatMap (fun g => entryWrites (trimSuffix g ".gz") ((w.gzData g).getD "")) ∧
      st'.table = [] ∧ st'.catOpened = true := by
  intro gs
  induction gs with
  | nil =>
    intro st hW hCat hTab _
    exact ⟨st, by simp [runGzFiles, strJoin, hTab, hCat]⟩
  | cons g rest ih =>
    intro st hW hCat hTab hData
    obtain ⟨data, hD⟩ := Option.isSome_iff_exists.mp (hData g (by simp))
    rw [runGzFiles, gzStep_ok w g st data hW hCat hTab hD]
    obtain ⟨st', h1, h2, h3, h4, h5⟩ :=
      ih { st with
            files := setFs (setFs st.files (trimSuffix g ".gz") "") (trimSuffix g ".gz") data,
            cat := st.cat ++ data ++ "\n",
            trace := st.trace ++ entryWrites (trimSuffix g ".gz") data }
        hW hCat hTab (fun x hx => hData x (List.mem_cons_of_mem g hx))
    refine ⟨st', h1, ?_, ?_, h4, h5⟩
    · rw [h2]; simp [hD, strJoin, String.append_assoc]
    · rw [h3]; simp [hD]

/-- Processing a concatenation of entry lists: the second half runs from
the first half's final state, unless the first half aborted. -/
theorem runEntries_append (w : World) (d : String) (es1 es2 : List Entry) :
    ∀ st : St, runEntries w d (es1 ++ es2) st =
      match runEntries w d es1 st with
      | .ok st' => runEntries w d es2 st'
      | .fatal s m => .fatal s m := by
  induction es1 with
  | nil => intro st; simp [runEntries]
  | cons e rest ih =>
    intro st
    rw [List.cons_append, runEntries, runEntries]
    cases h : unzipFile w e d st with
    | mk st' o =>
      cases o with
      | none => exact ih st'
      | some m => rfl

/-- When every matched archive opens, `handleZip` is the entry loop over
all archives' entries in discovery order. -/
theorem runArchives_as_entries (w : World) :
    ∀ (fs : List String) (st : St),
    (∀ f ∈ fs, (w.zipEntries f).isSome) →
    runArchives w fs st = runEntries w (zipDest w) (archiveEntries w fs) st := by
  intro fs
  induction fs with
  | nil => intro st _; simp [runArchives, archiveEntries, runEntries]
  | cons f rest ih =>
    intro st hOpen
    obtain ⟨es, hE⟩ := Option.isSome_iff_exists.mp (hOpen f (by simp))
    have hAE : archiveEntries w (f :: rest) = es ++ archiveEntries w rest := by
      simp [archiveEntries, hE]
    rw [hAE, runEntries_append, runArchives, hE]
    cases h : runEntries w (zipDest w) es st with
    | ok st' =>
      simp only [h]
      exact ih st' (fun x hx => hOpen x (List.mem_cons_of_mem f hx))
    | fatal s m => simp only [h]

/-! ## Scanner lemmas -/

/-- An error-free walk collects exactly the regular files whose
`filepath.Ext` equals the filter, in discovery order. -/
theorem scanGo_filter (events : List DirEnt) (ext : String)
    (h : ∀ x ∈ events, x.err = false) :
    scanGo events ext =
      ((events.filter (fun x => !x.isDir && (goExt x.name == ext))).map (fun x => x.path),
        false) := by
  induction events with
  | nil => simp [scanGo]
  | cons e rest ih =>
    have he : e.err = false := h e (by simp)
    have ihr := ih (fun x hx => h x (List.mem_cons_of_mem e hx))
    by_cases hd : e.isDir = true
    · simp [scanGo, he, hd, ihr]
    · have hd' : e.isDir = false := by simpa using hd
      by_cases hx : goExt e.name = ext
      · simp [scanGo, he, hd', hx, ihr]
      · simp [scanGo, he, hd', hx, ihr]

/-- A traversal error stops the walk where it happens: nothing after it is
collected and the error is reported to the (discarding) caller. -/
theorem scanGo_error (pre : List DirEnt) (bad : DirEnt) (post : List DirEnt) (ext : String)
    (hpre : ∀ x ∈ pre, x.err = false) (hbad : bad.err = true) :
    scanGo (pre ++ bad :: post) ext = ((scanGo pre ext).1, true) := by
  induction pre with
  | nil => simp [scanGo, hbad]
  | cons e rest ih =>
    have he : e.err = false := hpre e (by simp)
    have ihr := ih (fun x hx => hpre x (List.mem_cons_of_mem e hx))
    by_cases hd : e.isDir = true
    · simp [scanGo, he, hd, ihr]
    · have hd' : e.isDir = false := by simpa using hd
      by_cases hx : goExt e.name = ext
      · simp [scanGo, he, hd', hx, ihr]
      · simp [scanGo, he, hd', hx, ihr]

/-! ## Fault-branch step lemmas -/

/-- Creating the output file for a fresh regular entry fails: `unzipFile`
errors with only the parent directory created. -/
theorem unzipFile_createFault (w : World) (e : Entry) (d : String) (st : St)
    (hDir : e.isDir = false) (hSafe : slipOk d e = true)
    (hT : lookupTab st.table (entryPath d e) = none)
    (hC : w.faults.create (entryPath d e) = true) :
    unzipFile w e d st =
      ({ st with dirs := mkdirAll st.dirs (goDir (entryPath d e)) },
        some ("open " ++ entryPath d e ++ ": create failed")) := by
  have hs : strStartsWith (goJoin d e.name) (goClean d ++ "/") = true := by
    simpa [slipOk, entryPath] using hSafe
  have hT' : lookupTab st.table (goJoin d e.name) = none := by
    simpa [entryPath] using hT
  have hC' : w.faults.create (goJoin d e.name) = true := by
    simpa [entryPath] using hC
  simp only [unzipFile, hs, hDir, not_true_eq_false, ite_false, ite_true,
    Bool.false_eq_true, if_false]
  rw [autoRename_absent _ _ hT']
  simp [entryPath, hC']

/-- Copying the payload into a fresh regular entry's output file fails:
`unzipFile` errors, leaving the file created empty. -/
theorem unzipFile_writeFault (w : World) (e : Entry) (d : String) (st : St)
    (hDir : e.isDir = false) (hSafe : slipOk d e = true)
    (hT : lookupTab st.table (entryPath d e) = none)
    (hC : w.faults.create (entryPath d e) = false)
    (hWr : w.faults.write (entryPath d e) = true) :
    unzipFile w e d st =
      ({ st with dirs := mkdirAll st.dirs (goDir (entryPath d e)),
                 files := setFs st.files (entryPath d e) "",
                 trace := st.trace ++ [Ev.create (entryPath d e)] },
        some ("write " ++ entryPath d e ++ ": write failed")) := by
  have hs : strStartsWith (goJoin d e.name) (goClean d ++ "/") = true := by
    simpa [slipOk, entryPath] using hSafe
  have hT' : lookupTab st.table (goJoin d e.name) = none := by
    simpa [entryPath] using hT
  have hC' : w.faults.create (goJoin d e.name) = false := by
    simpa [entryPath] using hC
  have hWr' : w.faults.write (goJoin d e.name) = true := by
    simpa [entryPath] using hWr
  simp only [unzipFile, hs, hDir, not_true_eq_false, ite_false, ite_true,
    Bool.false_eq_true, if_false]
  rw [autoRename_absent _ _ hT']
  simp [entryPath, hC', hWr']

/-- Copying the payload into the aggregate file fails: `unzipFile` errors
after writing the output file. -/
theorem unzipFile_catWriteFault (w : World) (e : Entry) (d : String) (st : St)
    (hDir : e.isDir = false) (hSafe : slipOk d e = true)
    (hT : lookupTab st.table (entryPath d e) = none)
    (hC : w.faults.create (entryPath d e) = false)
    (hWr : w.faults.write (entryPath d e) = false)
    (hCW : w.faults.catWrite = true) :
    unzipFile w e d st =
      ({ st with dirs := mkdirAll st.dirs (goDir (entryPath d e)),
                 files := setFs (setFs st.files (entryPath d e) "") (entryPath d e) e.content,
                 trace := st.trace ++ [Ev.create (entryPath d e),
                                       Ev.writeFile (entryPath d e) e.content] },
        some "write cat: write failed") := by
  have hs : strStartsWith (goJoin d e.name) (goClean d ++ "/") = true := by
    simpa [slipOk, entryPath] using hSafe
  have hT' : lookupTab st.table (goJoin d e.name) = none := by
    simpa [entryPath] using hT
  have hC' : w.faults.create (goJoin d e.name) = false := by
    simpa [entryPath] using hC
  have hWr' : w.faults.write (goJoin d e.name) = false := by
    simpa [entryPath] using hWr
  simp only [unzipFile, hs, hDir, not_true_eq_false, ite_false, ite_true,
    Bool.false_eq_true, if_false]
  rw [autoRename_absent _ _ hT']
  simp [entryPath, hC', hWr', hCW]

/-- A failed newline write is swallowed: the entry still succeeds and the
aggregate file ends with the payload, without a separator. -/
theorem unzipFile_newlineFault (w : World) (e : Entry) (d : String) (st : St)
    (hW : w.faults = { noFaults with catNewline := true })
    (hCat : st.catOpened = true)
    (hDir : e.isDir = false) (hSafe : slipOk d e = true)
    (hT : lookupTab st.table (entryPath d e) = none)
    (hF : lookupFs st.files (entryPath d e) = none) :
    unzipFile w e d st =
      ({ st with
          dirs := mkdirAll st.dirs (goDir (entryPath d e)),
          files := st.files ++ [(entryPath d e, e.content)],
          cat := st.cat ++ e.content,
          trace := st.trace ++ [Ev.create (entryPath d e),
                                Ev.writeFile (entryPath d e) e.content,
                                Ev.writeCat e.content],
          table := st.table ++ [(entryPath d e, 1)] }, none) := by
  have hs : strStartsWith (goJoin d e.name) (goClean d ++ "/") = true := by
    simpa [slipOk, entryPath] using hSafe
  have hT' : lookupTab st.table (goJoin d e.name) = none := by
    simpa [entryPath] using hT
  have hF' : lookupFs st.files (goJoin d e.name) = none := by
    simpa [entryPath] using hF
  simp only [unzipFile, hs, hDir, hW, not_true_eq_false, ite_false, ite_true,
    Bool.false_eq_true, if_false]
  rw [autoRename_absent _ _ hT']
  simp only [hCat, setFs_absent st.files _ _ hF',
    setFs_append_self st.files _ _ _ hF', incrTab_absent _ _ hT']
  simp [entryPath, hCat, noFaults, incrTab_absent _ _ hT']

/-! ## Adequacy and determinism of the run relations -/

/-- The entry loop realizes its big-step relation. -/
theorem entriesRel_run (w : World) (d : String) :
    ∀ (es : List Entry) (st : St), EntriesRel w d es st (runEntries w d es st) := by
  intro es
  induction es with
  | nil => intro st; exact EntriesRel.nil st
  | cons e rest ih =>
    intro st
    cases h : unzipFile w e d st with
    | mk st' o =>
      cases o with
      | some m =>
        rw [runEntries, h]
        exact EntriesRel.consFatal e rest st st' m h
      | none =>
        rw [runEntries, h]
        exact EntriesRel.consOk e rest st st' _ h (ih st')

/-- The archive loop realizes its big-step relation. -/
theorem archivesRel_run (w : World) :
    ∀ (fs : List String) (st : St), ArchivesRel w fs st (runArchives w fs st) := by
  intro fs
  induction fs with
  | nil => intro st; exact ArchivesRel.nil st
  | cons f rest ih =>
    intro st
    cases hE : w.zipEntries f with
    | none =>
      rw [runArchives, hE]
      exact ArchivesRel.openFatal f rest st hE
    | some es =>
      have hg : runArchives w (f :: rest) st =
          match runEntries w (zipDest w) es st with
          | .fatal st' m => .fatal st' m
          | .ok st' => runArchives w rest st' := by
        rw [runArchives, hE]
      rw [hg]
      cases hR : runEntries w (zipDest w) es st with
      | ok st' =>
        exact ArchivesRel.entOk f rest st st' es _ hE (hR ▸ entriesRel_run w (zipDest w) es st)
          (ih st')
      | fatal s m =>
        exact ArchivesRel.entFatal f rest st s es m hE
          (hR ▸ entriesRel_run w (zipDest w) es st)

/-- The gzip loop realizes its big-step relation. -/
theorem gzRel_run (w : World) :
    ∀ (gs : List String) (st : St), GzRel w gs st (runGzFiles w gs st) := by
  intro gs
  induction gs with
  | nil => intro st; exact GzRel.nil st
  | cons g rest ih =>
    intro st
    cases h : gzStep w g st with
    | mk st' o =>
      cases o with
      | some m =>
        rw [runGzFiles, h]
        exact GzRel.stepFatal g rest st st' m h
      | none =>
        rw [runGzFiles, h]
        exact GzRel.stepOk g rest st st' _ h (ih st')

/-- The entry-loop relation is a function of its inputs. -/
theorem entriesRel_det (w : World) (d : String) {es : List Entry} {st : St}
    {o1 o2 : Outcome} (h1 : EntriesRel w d es st o1) (h2 : EntriesRel w d es st o2) :
    o1 = o2 := by
  induction h1 generalizing o2 with
  | nil st => cases h2; rfl
  | consFatal e es st st' m hu =>
    cases h2 with
    | consFatal _ _ _ st'' m' hu' =>
      rw [hu] at hu'
      obtain ⟨h1', h2'⟩ := Prod.mk.injEq .. ▸ hu'
      cases h1'
      cases Option.some.injEq .. ▸ h2'
      rfl
    | consOk _ _ _ st'' o hu' _ =>
      rw [hu] at hu'
      exact absurd (Prod.mk.injEq .. ▸ hu').2 (by simp)
  | consOk e es st st' o hu hrest ih =>
    cases h2 with
    | consFatal _ _ _ st'' m' hu' =>
      rw [hu] at hu'
      exact absurd (Prod.mk.injEq .. ▸ hu').2 (by simp)
    | consOk _ _ _ st'' o' hu' h2' =>
      rw [hu] at hu'
      obtain ⟨h1', _⟩ := Prod.mk.injEq .. ▸ hu'
      cases h1'
      exact ih h2'

/-- The archive-loop relation is a function of its inputs. -/
theorem archivesRel_det (w : World) {fs : List String} {st : St}
    {o1 o2 : Outcome} (h1 : ArchivesRel w fs st o1) (h2 : ArchivesRel w fs st o2) :
    o1 = o2 := by
  induction h1 generalizing o2 with
  | nil st => cases h2; rfl
  | openFatal f fs st hE =>
    cases h2 with
    | openFatal _ _ _ _ => rfl
    | entFatal _ _ _ st' es m hE' _ => rw [hE] at hE'; cases hE'
    | entOk _ _ _ st' es o hE' _ _ => rw [hE] at hE'; cases hE'
  | entFatal f fs st st' es m hE hEnt =>
    cases h2 with
    | openFatal _ _ _ hE' => rw [hE] at hE'; cases hE'
    | entFatal _ _ _ st'' es' m' hE' hEnt' =>
      rw [hE] at hE'
      cases (Option.some.injEq .. ▸ hE')
      exact entriesRel_det w (zipDest w) hEnt hEnt'
    | entOk _ _ _ st'' es' o hE' hEnt' _ =>
      rw [hE] at hE'
      cases (Option.some.injEq .. ▸ hE')
      cases entriesRel_det w (zipDest w) hEnt hEnt'
  | entOk f fs st st' es o hE hEnt hRest ih =>
    cases h2 with
    | openFatal _ _ _ hE' => rw [hE] at hE'; cases hE'
    | entFatal _ _ _ st'' es' m' hE' hEnt' =>
      rw [hE] at hE'
      cases (Option.some.injEq .. ▸ hE')
      cases entriesRel_det w (zipDest w) hEnt hEnt'
    | entOk _ _ _ st'' es' o' hE' hEnt' hRest' =>
      rw [hE] at hE'
      cases (Option.some.injEq .. ▸ hE')
      cases entriesRel_det w (zipDest w) hEnt hEnt'
      exact ih hRest'

/-- The gzip-loop relation is a function of its inputs. -/
theorem gzRel_det (w : World) {gs : List String} {st : St}
    {o1 o2 : Outcome} (h1 : GzRel w gs st o1) (h2 : GzRel w gs st o2) :
    o1 = o2 := by
  induction h1 generalizing o2 with
  | nil st => cases h2; rfl
  | stepFatal g gs st st' m hu =>
    cases h2 with
    | stepFatal _ _ _ st'' m' hu' =>
      rw [hu] at hu'
      obtain ⟨h1', h2'⟩ := Prod.mk.injEq .. ▸ hu'
      cases h1'
      cases Option.some.injEq .. ▸ h2'
      rfl
    | stepOk _ _ _ st'' o hu' _ =>
      rw [hu] at hu'
      exact absurd (Prod.mk.injEq .. ▸ hu').2 (by simp)
  | stepOk g gs st st' o hu hrest ih =>
    cases h2 with
    | stepFatal _ _ _ st'' m' hu' =>
      rw [hu] at hu'
      exact absurd (Prod.mk.injEq .. ▸ hu').2 (by simp)
    | stepOk _ _ _ st'' o' hu' h2' =>
      rw [hu] at hu'
      obtain ⟨h1', _⟩ := Prod.mk.injEq .. ▸ hu'
      cases h1'
      exact ih h2'

/-! ## Claim theorems -/

/-- C1: for every zip archive entry, the computed output path (output root
joined with the entry's declared name, `entryPath`) is checked to have the
output root plus a trailing path separator as a strict prefix (`slipOk`);
an entry whose name would escape the output root is rejected with the state
untouched — no output file is written for it — and the entry loop aborts
the whole run fatally. -/
theorem C1_zip_slip_rejected (w : World) (e : Entry) (d : String) (st : St)
    (es : List Entry) (h : slipOk d e = false) :
    unzipFile w e d st = (st, some ("invalid file path: " ++ entryPath d e)) ∧
    runEntries w d (e :: es) st =
      Outcome.fatal st
        ("Unable to to unzip file inside archive: " ++
          ("invalid file path: " ++ entryPath d e)) := by
  have h1 := unzipFile_slip w e d st h
  refine ⟨h1, ?_⟩
  rw [runEntries, h1]

/-- Witness for C1 at the entry `../evil.txt` against output root `/out`:
the guard fails, the state is returned unchanged and the loop aborts. -/
theorem C1_zip_slip_rejected_witness :
    unzipFile zipWorld3 entEvil "/out" (initSt zipWorld3) =
      ((initSt zipWorld3), some ("invalid file path: " ++ entryPath "/out" entEvil)) ∧
    runEntries zipWorld3 "/out" [entEvil] (initSt zipWorld3) =
      Outcome.fatal (initSt zipWorld3)
        ("Unable to to unzip file inside archive: " ++
          ("invalid file path: " ++ entryPath "/out" entEvil)) :=
  C1_zip_slip_rejected zipWorld3 entEvil "/out" (initSt zipWorld3) [] (by decide)

/-- C3 (failing input): one archive with three entries all named `a.txt`.
The collision counter is incremented under the *renamed* path, not the
original one, so the second and third entries both resolve to
`/out/a(1).txt`: the renamed paths collide (the third write overwrites the
second), refuting pairwise distinctness of the Collision Namer's
outputs. -/
theorem C3_renamed_paths_collide :
    runMain zipWorld3 = Outcome.ok
      { files := [("/out/a.txt", "1"), ("/out/a(1).txt", "3")],
        dirs := ["/out"],
        cat := "1\n2\n3\n",
        catOpened := true,
        table := [("/out/a.txt", 1), ("/out/a(1).txt", 2)],
        trace := [Ev.create "/out/a.txt", Ev.writeFile "/out/a.txt" "1",
                  Ev.writeCat "1", Ev.catNl,
                  Ev.create "/out/a(1).txt", Ev.writeFile "/out/a(1).txt" "2",
                  Ev.writeCat "2", Ev.catNl,
                  Ev.create "/out/a(1).txt", Ev.writeFile "/out/a(1).txt" "3",
                  Ev.writeCat "3", Ev.catNl] } ∧
    ((outSt (runMain zipWorld3)).trace.count (Ev.create "/out/a(1).txt") = 2 ∧
      lookupFs (outSt (runMain zipWorld3)).files "/out/a(1).txt" = some "3") := by
  decide

/-- C4 (counterexample): after extracting `a.gz` in gzip mode the derived
path `a` was used for an output file, yet the collision table does not
record it — `autoRenameRepeatedFiles` would hand the very same path `a` to
a second input deriving it, contradicting "recorded as used". -/
theorem C4_counterexample_not_recorded :
    runMain gzWorld4 = Outcome.ok
      { files := [("a", "X")], dirs := [], cat := "X\n", catOpened := true,
        table := [],
        trace := [Ev.create "a", Ev.writeFile "a" "X", Ev.writeCat "X", Ev.catNl] } ∧
    lookupTab (outSt (runMain gzWorld4)).table "a" = none ∧
    autoRenameRepeatedFiles (outSt (runMain gzWorld4)).table "a" = "a" := by
  decide

/-- C4 (amended): in the gzip extractor the Collision Namer is only
consulted, never updated: a never-used path is returned unchanged but NOT
recorded as used — the collision table after any `handleGz` loop equals
the table before it, so a second input deriving the same path would be
given that same path again. -/
theorem C4_gz_table_never_updated :
    (∀ (w : World) (gs : List String) (st : St),
      (outSt (runGzFiles w gs st)).table = st.table) ∧
    (∀ (t : List (String × Nat)) (p : String),
      lookupTab t p = none → autoRenameRepeatedFiles t p = p) := by
  constructor
  · intro w gs
    induction gs with
    | nil => intro st; simp [runGzFiles, outSt]
    | cons g rest ih =>
      intro st
      have hTab := gzStep_table w g st
      rw [runGzFiles]
      cases h : gzStep w g st with
      | mk st' o =>
        rw [h] at hTab
        cases o with
        | some m => simpa [outSt] using hTab
        | none => rw [ih st']; exact hTab
  · intro t p h
    exact autoRename_absent t p h

/-- Witness for C4 (amended): the `a.gz` run leaves the table as it
started, and an absent path is returned unchanged by the namer. -/
theorem C4_gz_table_never_updated_witness :
    (outSt (runGzFiles gzWorld4 ["a.gz"] (initSt gzWorld4))).table =
      (initSt gzWorld4).table ∧
    autoRenameRepeatedFiles [] "a" = "a" :=
  ⟨C4_gz_table_never_updated.1 gzWorld4 ["a.gz"] (initSt gzWorld4),
    C4_gz_table_never_updated.2 [] "a" (by decide)⟩

/-- C5 (failing input): `-dir in`, `-outdir out`, input `in/a.gz`
decompressing to `"X"`. The gzip extractor derives the output path by
trimming `".gz"` from the *input* path and never joins it with `-outdir`:
the extracted file lands at `in/a`, which is not under the output
directory `out`. -/
theorem C5_gz_output_outside_outdir :
    runMain gzWorld5 = Outcome.ok
      { files := [("in/a", "X")], dirs := [], cat := "X\n", catOpened := true,
        table := [],
        trace := [Ev.create "in/a", Ev.writeFile "in/a" "X", Ev.writeCat "X", Ev.catNl] } ∧
    gzWorld5.cfg.outdir = "out" ∧
    strStartsWith "in/a" ("out" ++ "/") = false := by
  decide

/-- C6 (counterexample): with the only filesystem fault being the failure
to create the aggregate file, the run still completes normally (exit 0):
the error from `os.OpenFile` on the aggregate is discarded by `main`, so
not every filesystem error during file creation aborts the run. -/
theorem C6_counterexample_cat_open_ignored :
    zipWorld6.faults.catOpen = true ∧
    runMain zipWorld6 = Outcome.ok
      { files := [], dirs := ["/out/sub"], cat := "", catOpened := false,
        table := [], trace := [] } := by
  decide

/-- C7 (counterexample): the walk hits a traversal error after discovering
`in/t.zip`; the error is reported by the scan (second component `true`)
but `main` discards it and extraction still runs, writing `/out/a.txt` —
refuting "no extraction is performed after a traversal error occurs". -/
theorem C7_counterexample_extract_after_error :
    (scanGo zipWorld7.events zipWorld7.cfg.ext).2 = true ∧
    runMain zipWorld7 = Outcome.ok
      { files := [("/out/a.txt", "A")], dirs := ["/out"], cat := "A\n",
        catOpened := true, table := [("/out/a.txt", 1)],
        trace := [Ev.create "/out/a.txt", Ev.writeFile "/out/a.txt" "A",
                  Ev.writeCat "A", Ev.catNl] } := by
  decide

/-- C7 (amended): a traversal error aborts the remainder of the scan —
nothing at or after the erroring node is collected and the error is
returned to `main` — but `main` discards it: the run proceeds to
extraction over exactly the files collected before the error. -/
theorem C7_scan_error_truncates_then_run_proceeds :
    ∀ (pre post : List DirEnt) (bad : DirEnt) (w : World),
    (∀ x ∈ pre, x.err = false) → bad.err = true →
    w.events = pre ++ bad :: post →
    scanGo w.events w.cfg.ext = ((scanGo pre w.cfg.ext).1, true) ∧
    runMain w = dispatchFiles w (scanGo pre w.cfg.ext).1 := by
  intro pre post bad w hpre hbad hev
  have h1 : scanGo w.events w.cfg.ext = ((scanGo pre w.cfg.ext).1, true) := by
    rw [hev]
    exact scanGo_error pre bad post w.cfg.ext hpre hbad
  exact ⟨h1, by rw [runMain, h1]⟩

/-- Witness for C7 (amended) on the concrete interrupted walk. -/
theorem C7_scan_error_truncates_then_run_proceeds_witness :
    scanGo zipWorld7.events zipWorld7.cfg.ext =
      ((scanGo [{ path := "in/t.zip", name := "t.zip", isDir := false, err := false }]
          zipWorld7.cfg.ext).1, true) ∧
    runMain zipWorld7 = dispatchFiles zipWorld7
      (scanGo [{ path := "in/t.zip", name := "t.zip", isDir := false, err := false }]
        zipWorld7.cfg.ext).1 :=
  C7_scan_error_truncates_then_run_proceeds
    [{ path := "in/t.zip", name := "t.zip", isDir := false, err := false }]
    [{ path := "in/u.zip", name := "u.zip", isDir := false, err := false }]
    { path := "in/bad", name := "bad", isDir := false, err := true }
    zipWorld7 (by decide) (by decide) (by decide)

/-- C8: an error-free scan selects exactly the non-directory nodes whose
`filepath.Ext` of the base name equals the configured filter string
(case-sensitive exact equality — so neither sub-extensions nor case
variants match), in discovery order; directories are never selected. -/
theorem C8_scanner_exact_filter (events : List DirEnt) (ext : String)
    (h : ∀ x ∈ events, x.err = false) :
    (scanGo events ext).1 =
      (events.filter (fun x => !x.isDir && (goExt x.name == ext))).map
        (fun x => x.path) := by
  rw [scanGo_filter events ext h]

/-- Witness for C8 on a walk containing a directory named like a match, an
exact match, a case variant, a sub-extension and a double extension: only
`in/a.zip` and `in/e.tar.zip` are selected, in discovery order. -/
theorem C8_scanner_exact_filter_witness :
    (scanGo scanEvents8 ".zip").1 = ["in/a.zip", "in/e.tar.zip"] := by
  rw [C8_scanner_exact_filter scanEvents8 ".zip" (by decide)]
  decide

/-- C9: a zip directory entry that passes the path guard creates its
directory tree and nothing else — no output file, no aggregate bytes, no
write events, and the collision table is untouched. -/
theorem C9_dir_entry_frame (w : World) (e : Entry) (d : String) (st : St)
    (hDir : e.isDir = true) (hSafe : slipOk d e = true) :
    (unzipFile w e d st).2 = none ∧
    (unzipFile w e d st).1.files = st.files ∧
    (unzipFile w e d st).1.cat = st.cat ∧
    (unzipFile w e d st).1.table = st.table ∧
    (unzipFile w e d st).1.trace = st.trace ∧
    (unzipFile w e d st).1.dirs = mkdirAll st.dirs (entryPath d e) := by
  rw [unzipFile_dir w e d st hSafe hDir]
  exact ⟨rfl, rfl, rfl, rfl, rfl, rfl⟩

/-- Witness for C9 at the directory entry `sub` under root `/out`. -/
theorem C9_dir_entry_frame_witness :
    (unzipFile zipWorld6 entSub "/out" (initSt zipWorld6)).1.files =
      (initSt zipWorld6).files ∧
    (unzipFile zipWorld6 entSub "/out" (initSt zipWorld6)).1.cat =
      (initSt zipWorld6).cat :=
  ⟨(C9_dir_entry_frame zipWorld6 entSub "/out" (initSt zipWorld6) (by decide)
      (by decide)).2.1,
    (C9_dir_entry_frame zipWorld6 entSub "/out" (initSt zipWorld6) (by decide)
      (by decide)).2.2.1⟩

/-- C2: in a fault-free run with no output-path collision, the aggregate
file's final bytes are the concatenation, in discovery order, of each
extracted non-directory entry's decompressed content followed by exactly
one newline; the write trace is exactly one create/write to each entry's
own output file plus one aggregate write and one newline per entry, and
each output file holds its entry's payload (zip branch first, gz branch
second). -/
theorem C2_aggregate_concat_and_unique_writes :
    (∀ w : World,
      w.faults = noFaults →
      goExt w.cfg.ext ≠ ".gz" →
      (∀ f ∈ (scanGo w.events w.cfg.ext).1, (w.zipEntries f).isSome) →
      (∀ e ∈ archiveEntries w (scanGo w.events w.cfg.ext).1,
        slipOk (zipDest w) e = true) →
      ((regEntries (archiveEntries w (scanGo w.events w.cfg.ext).1)).map
        (entryPath (zipDest w))).Nodup →
      ∃ st', runMain w = Outcome.ok st' ∧
        st'.cat = strJoin
          ((regEntries (archiveEntries w (scanGo w.events w.cfg.ext).1)).map
            (fun e => e.content ++ "\n")) ∧
        st'.trace =
          (regEntries (archiveEntries w (scanGo w.events w.cfg.ext).1)).flatMap
            (fun e => entryWrites (entryPath (zipDest w) e) e.content) ∧
        st'.files =
          (regEntries (archiveEntries w (scanGo w.events w.cfg.ext).1)).map
            (fun e => (entryPath (zipDest w) e, e.content))) ∧
    (∀ w : World,
      w.faults = noFaults →
      goExt w.cfg.ext = ".gz" →
      (∀ g ∈ (scanGo w.events w.cfg.ext).1, (w.gzData g).isSome) →
      ∃ st', runMain w = Outcome.ok st' ∧
        st'.cat = strJoin (((scanGo w.events w.cfg.ext).1).map
          (fun g => (w.gzData g).getD "" ++ "\n")) ∧
        st'.trace = ((scanGo w.events w.cfg.ext).1).flatMap
          (fun g => entryWrites (trimSuffix g ".gz") ((w.gzData g).getD ""))) := by
  constructor
  · intro w hW hExt hOpen hSafe hN
    have hMain : runMain w = runArchives w (scanGo w.events w.cfg.ext).1 (initSt w) := by
      rw [runMain, dispatchFiles, if_neg hExt]
    have hCat : (initSt w).catOpened = true := by
      rw [initSt]
      simp [hW, noFaults]
    obtain ⟨st', h1, h2, h3, h4, h5, h6⟩ :=
      runEntries_fresh w (zipDest w) (archiveEntries w (scanGo w.events w.cfg.ext).1)
        (initSt w) hW hCat hSafe (fun e _ => rfl) (fun e _ => rfl) hN
    refine ⟨st', ?_, ?_, ?_, ?_⟩
    · rw [hMain, runArchives_as_entries w _ (initSt w) hOpen, h1]
    · rw [h3]
      simp [initSt]
    · rw [h4]
      simp [initSt]
    · rw [h2]
      simp [initSt]
  · intro w hW hExt hData
    have hMain : runMain w = runGzFiles w (scanGo w.events w.cfg.ext).1 (initSt w) := by
      rw [runMain, dispatchFiles, if_pos hExt]
    have hCat : (initSt w).catOpened = true := by
      rw [initSt]
      simp [hW, noFaults]
    obtain ⟨st', h1, h2, h3, _, _⟩ :=
      runGzFiles_ok w (scanGo w.events w.cfg.ext).1 (initSt w) hW hCat rfl hData
    refine ⟨st', ?_, ?_, ?_⟩
    · rw [hMain, h1]
    · rw [h2]
      simp [initSt]
    · rw [h3]
      simp [initSt]

/-- Witness for C2: the zip conjunct at the `in/t.zip` run and the gz
conjunct at the `a.gz` run. -/
theorem C2_aggregate_concat_and_unique_writes_witness :
    (∃ st', runMain zipWorld7 = Outcome.ok st' ∧
      st'.cat = strJoin
        ((regEntries (archiveEntries zipWorld7
            (scanGo zipWorld7.events zipWorld7.cfg.ext).1)).map
          (fun e => e.content ++ "\n")) ∧
      st'.trace =
        (regEntries (archiveEntries zipWorld7
            (scanGo zipWorld7.events zipWorld7.cfg.ext).1)).flatMap
          (fun e => entryWrites (entryPath (zipDest zipWorld7) e) e.content) ∧
      st'.files =
        (regEntries (archiveEntries zipWorld7
            (scanGo zipWorld7.events zipWorld7.cfg.ext).1)).map
          (fun e => (entryPath (zipDest zipWorld7) e, e.content))) ∧
    (∃ st', runMain gzWorld4 = Outcome.ok st' ∧
      st'.cat = strJoin (((scanGo gzWorld4.events gzWorld4.cfg.ext).1).map
        (fun g => (gzWorld4.gzData g).getD "" ++ "\n")) ∧
      st'.trace = ((scanGo gzWorld4.events gzWorld4.cfg.ext).1).flatMap
        (fun g => entryWrites (trimSuffix g ".gz") ((gzWorld4.gzData g).getD ""))) :=
  ⟨C2_aggregate_concat_and_unique_writes.1 zipWorld7 rfl (by decide) (by decide)
      (by decide) (by decide),
    C2_aggregate_concat_and_unique_writes.2 gzWorld4 rfl (by decide) (by decide)⟩

/-- If the head entry errors, the entry loop aborts fatally. -/
theorem runEntries_fatal_of_err (w : World) (d : String) (e : Entry)
    (es : List Entry) (st : St) (h : (unzipFile w e d st).2.isSome = true) :
    ∃ s m, runEntries w d (e :: es) st = Outcome.fatal s m := by
  cases hu : unzipFile w e d st with
  | mk st' o =>
    cases o with
    | none => rw [hu] at h; simp at h
    | some m =>
      exact ⟨st', "Unable to to unzip file inside archive: " ++ m,
        by rw [runEntries, hu]⟩

/-- C6 (amended): a filesystem error creating a per-entry output file,
writing its payload, or copying the payload to the aggregate file aborts
the run fatally; however the error of creating the aggregate file itself
is discarded (with nothing left to copy the run even exits 0), and an
error writing the newline separator is swallowed: the entry still
succeeds and only the separator is missing. -/
theorem C6_fatal_and_ignored_fs_errors :
    (∀ (w : World) (e : Entry) (d : String) (st : St) (es : List Entry),
      e.isDir = false → slipOk d e = true →
      lookupTab st.table (entryPath d e) = none →
      w.faults.create (entryPath d e) = true →
      ∃ s m, runEntries w d (e :: es) st = Outcome.fatal s m) ∧
    (∀ (w : World) (e : Entry) (d : String) (st : St) (es : List Entry),
      e.isDir = false → slipOk d e = true →
      lookupTab st.table (entryPath d e) = none →
      w.faults.create (entryPath d e) = false →
      w.faults.write (entryPath d e) = true →
      ∃ s m, runEntries w d (e :: es) st = Outcome.fatal s m) ∧
    (∀ (w : World) (e : Entry) (d : String) (st : St) (es : List Entry),
      e.isDir = false → slipOk d e = true →
      lookupTab st.table (entryPath d e) = none →
      w.faults.create (entryPath d e) = false →
      w.faults.write (entryPath d e) = false →
      w.faults.catWrite = true →
      ∃ s m, runEntries w d (e :: es) st = Outcome.fatal s m) ∧
    (∀ (w : World) (e : Entry) (d : String) (st : St),
      w.faults = { noFaults with catNewline := true } →
      st.catOpened = true →
      e.isDir = false → slipOk d e = true →
      lookupTab st.table (entryPath d e) = none →
      lookupFs st.files (entryPath d e) = none →
      (unzipFile w e d st).2 = none ∧
      (unzipFile w e d st).1.cat = st.cat ++ e.content) ∧
    (∀ w : World, w.faults.catOpen = true → goExt w.cfg.ext ≠ ".gz" →
      (scanGo w.events w.cfg.ext).1 = [] → runMain w = Outcome.ok (initSt w)) := by
  refine ⟨?_, ?_, ?_, ?_, ?_⟩
  · intro w e d st es hDir hSafe hT hC
    exact runEntries_fatal_of_err w d e es st
      (by rw [unzipFile_createFault w e d st hDir hSafe hT hC]; rfl)
  · intro w e d st es hDir hSafe hT hC hWr
    exact runEntries_fatal_of_err w d e es st
      (by rw [unzipFile_writeFault w e d st hDir hSafe hT hC hWr]; rfl)
  · intro w e d st es hDir hSafe hT hC hWr hCW
    exact runEntries_fatal_of_err w d e es st
      (by rw [unzipFile_catWriteFault w e d st hDir hSafe hT hC hWr hCW]; rfl)
  · intro w e d st hW hCat hDir hSafe hT hF
    rw [unzipFile_newlineFault w e d st hW hCat hDir hSafe hT hF]
    exact ⟨rfl, rfl⟩
  · intro w hOpen hExt hscan
    rw [runMain, hscan, dispatchFiles, if_neg hExt]
    rfl

/-- Witness for C6 (amended): concrete faulty worlds for each branch. -/
theorem C6_fatal_and_ignored_fs_errors_witness :
    (∃ s m, runEntries zipWorld6a "/out" [entA] (initSt zipWorld6a) =
      Outcome.fatal s m) ∧
    (∃ s m, runEntries zipWorld6b "/out" [entA] (initSt zipWorld6b) =
      Outcome.fatal s m) ∧
    (∃ s m, runEntries zipWorld6c "/out" [entA] (initSt zipWorld6c) =
      Outcome.fatal s m) ∧
    ((unzipFile zipWorld6d entA "/out" (initSt zipWorld6d)).2 = none ∧
      (unzipFile zipWorld6d entA "/out" (initSt zipWorld6d)).1.cat =
        (initSt zipWorld6d).cat ++ entA.content) ∧
    runMain zipWorld6e = Outcome.ok (initSt zipWorld6e) :=
  ⟨C6_fatal_and_ignored_fs_errors.1 zipWorld6a entA "/out" (initSt zipWorld6a) []
      (by decide) (by decide) (by decide) (by decide),
    C6_fatal_and_ignored_fs_errors.2.1 zipWorld6b entA "/out" (initSt zipWorld6b) []
      (by decide) (by decide) (by decide) (by decide) (by decide),
    C6_fatal_and_ignored_fs_errors.2.2.1 zipWorld6c entA "/out" (initSt zipWorld6c) []
      (by decide) (by decide) (by decide) (by decide) (by decide) (by decide),
    C6_fatal_and_ignored_fs_errors.2.2.2.1 zipWorld6d entA "/out" (initSt zipWorld6d)
      rfl (by decide) (by decide) (by decide) (by decide) (by decide),
    C6_fatal_and_ignored_fs_errors.2.2.2.2 zipWorld6e (by decide) (by decide)
      (by decide)⟩

/-- C10: the program's run relations are functions of their inputs — for a
fixed world (directory contents, archive contents, flags, faults) any two
runs related to the same inputs produce identical output files (paths and
bytes) and identical aggregate bytes, in both zip and gzip mode. -/
theorem C10_run_relation_deterministic :
    (∀ (w : World) (fs : List String) (st : St) (o1 o2 : Outcome),
      ArchivesRel w fs st o1 → ArchivesRel w fs st o2 →
      (outSt o1).files = (outSt o2).files ∧ (outSt o1).cat = (outSt o2).cat ∧
        o1 = o2) ∧
    (∀ (w : World) (gs : List String) (st : St) (o1 o2 : Outcome),
      GzRel w gs st o1 → GzRel w gs st o2 →
      (outSt o1).files = (outSt o2).files ∧ (outSt o1).cat = (outSt o2).cat ∧
        o1 = o2) := by
  constructor
  · intro w fs st o1 o2 h1 h2
    have h := archivesRel_det w h1 h2
    exact ⟨by rw [h], by rw [h], h⟩
  · intro w gs st o1 o2 h1 h2
    have h := gzRel_det w h1 h2
    exact ⟨by rw [h], by rw [h], h⟩

/-- Witness for C10 at concrete derivations produced by the extraction
functions themselves. -/
theorem C10_run_relation_deterministic_witness :
    ((outSt (runArchives zipWorld3 ["in/t.zip"] (initSt zipWorld3))).files =
      (outSt (runArchives zipWorld3 ["in/t.zip"] (initSt zipWorld3))).files ∧
      (outSt (runArchives zipWorld3 ["in/t.zip"] (initSt zipWorld3))).cat =
        (outSt (runArchives zipWorld3 ["in/t.zip"] (initSt zipWorld3))).cat ∧
      runArchives zipWorld3 ["in/t.zip"] (initSt zipWorld3) =
        runArchives zipWorld3 ["in/t.zip"] (initSt zipWorld3)) ∧
    ((outSt (runGzFiles gzWorld4 ["a.gz"] (initSt gzWorld4))).files =
      (outSt (runGzFiles gzWorld4 ["a.gz"] (initSt gzWorld4))).files ∧
      (outSt (runGzFiles gzWorld4 ["a.gz"] (initSt gzWorld4))).cat =
        (outSt (runGzFiles gzWorld4 ["a.gz"] (initSt gzWorld4))).cat ∧
      runGzFiles gzWorld4 ["a.gz"] (initSt gzWorld4) =
        runGzFiles gzWorld4 ["a.gz"] (initSt gzWorld4)) :=
  ⟨C10_run_relation_deterministic.1 zipWorld3 ["in/t.zip"] (initSt zipWorld3) _ _
      (archivesRel_run zipWorld3 ["in/t.zip"] (initSt zipWorld3))
      (archivesRel_run zipWorld3 ["in/t.zip"] (initSt zipWorld3)),
    C10_run_relation_deterministic.2 gzWorld4 ["a.gz"] (initSt gzWorld4) _ _
      (gzRel_run gzWorld4 ["a.gz"] (initSt gzWorld4))
      (gzRel_run gzWorld4 ["a.gz"] (initSt gzWorld4))⟩

end CatZip
